import Mathlib

/-!
# Verification of the webctl adblock core

A shallow embedding of the content-filtering engine of the `webctl`
repository (`src/webctl/daemon/adblock/`): the filter-list parser
(`parser.py`), the network-filter matcher (`matcher.py`), the cosmetic
filter handler (`cosmetic.py`), the scriptlet handler (`scriptlets.py`),
the redirect-resource table (`resources.py`) and the route-handling part
of the engine (`engine.py`).

Python strings are modelled as `List Char` (`Str`); Python `set[str]`
values are modelled as lists used only through membership and
set-style insertion; Python `dict`s are modelled as association lists
whose operations mirror dict lookup and in-place update.  The Python
`re` module appears in two ways: patterns produced by
`_pattern_to_regex` from non-regex filter text use only a small closed
fragment (case-insensitive literals, `.*`, the separator class
`(?:[^\w\-.]|$)` and `^`/`$` anchors), which is modelled exactly by a
token matcher; raw regular-expression filters (`/…/`) compile arbitrary
regexes, which are modelled by an abstract search function passed as a
parameter (the `try/except` around compilation is absorbed by that
parameter, since any Bool-valued function covers both outcomes).
-/

namespace Webctl

abbrev Str := List Char

def ofStr (s : String) : Str := s.data

/-- The double-quote character. -/
def quote2 : Char := Char.ofNat 34

/-- The single-quote character. -/
def quote1 : Char := Char.ofNat 39

/-- The backslash character. -/
def backslash : Char := Char.ofNat 92

/-- The newline character. -/
def newlineChar : Char := Char.ofNat 10

/-- Python `s.lower()` (ASCII approximation, as used on hostnames/URLs). -/
def lower (s : Str) : Str := s.map Char.toLower

/-- Python `s.strip()`. -/
def stripWs (s : Str) : Str :=
  ((s.dropWhile Char.isWhitespace).reverse.dropWhile Char.isWhitespace).reverse

/-- Python `s.split(sep)` for a one-character separator: keeps empty pieces,
returns `[""]` on the empty string. -/
def splitOnC (sep : Char) : Str → List Str
  | [] => [[]]
  | c :: rest =>
    if c = sep then [] :: splitOnC sep rest
    else
      match splitOnC sep rest with
      | [] => [[c]]
      | p :: ps => (c :: p) :: ps

/-- Python `sep.join(pieces)`. -/
def joinSep (sep : Str) : List Str → Str
  | [] => []
  | [p] => p
  | p :: ps => p ++ sep ++ joinSep sep ps

/-- `matcher._get_hostname_variants` loop body: for parts `p₀…pₙ`, the
joined suffixes `[join p₀…pₙ, join p₁…pₙ, …, join pₙ]`. -/
def suffixJoins (sep : Char) : List Str → List Str
  | [] => []
  | p :: ps => joinSep [sep] (p :: ps) :: suffixJoins sep ps

/-- `matcher._get_hostname_variants`. -/
def getHostnameVariants (hostname : Str) : List Str :=
  suffixJoins '.' (splitOnC '.' hostname)

/-- The registrable-domain simplification inside `matcher._is_third_party`:
the last two dot-separated labels. -/
def getDomain (hostname : Str) : Str :=
  let parts := splitOnC '.' hostname
  if 2 ≤ parts.length then joinSep ['.'] (parts.drop (parts.length - 2))
  else hostname

/-- `matcher._is_third_party`. -/
def isThirdParty (urlHostname : Str) (sourceHostname : Option Str) : Bool :=
  match sourceHostname with
  | none => false
  | some src =>
    if src.isEmpty then false
    else getDomain urlHostname != getDomain src

/-- `matcher._domain_matches` (the network-filter variant, which passes
immediately when both constraint sets are empty). -/
def domainMatches (hostname : Str) (included excluded : List Str) : Bool :=
  if included.isEmpty && excluded.isEmpty then true
  else
    let variants := getHostnameVariants (lower hostname)
    if variants.any (fun v => excluded.contains v) then false
    else if included.isEmpty then true
    else variants.any (fun v => included.contains v)

/-- Characters allowed in a URL scheme by `urllib.parse`. -/
def isSchemeChar (c : Char) : Bool :=
  c.isAlpha || c.isDigit || c = '+' || c = '-' || c = '.'

/-- The netloc component of `urllib.parse.urlparse`: strip a valid
`scheme:` prefix, then, if the remainder starts with `//`, take the text
up to the next `/`, `?` or `#`; otherwise the netloc is empty. -/
def urlparseNetloc (url : Str) : Str :=
  let rest :=
    match url.findIdx? (· = ':') with
    | some i =>
      let pre := url.take i
      if 0 < i && pre.all isSchemeChar && pre.head?.any Char.isAlpha then
        url.drop (i + 1)
      else url
    | none => url
  if rest.take 2 = ['/', '/'] then
    (rest.drop 2).takeWhile (fun c => !(c = '/' || c = '?' || c = '#'))
  else []

/-- Hostname extraction in `should_block` / `_pattern_matches`:
`urlparse(url).netloc.lower()` with the port stripped. -/
def urlHostnameOf (url : Str) : Str :=
  (lower (urlparseNetloc url)).takeWhile (· ≠ ':')

/-- Python truthiness of an optional string. -/
def truthy : Option Str → Bool
  | none => false
  | some s => !s.isEmpty

/-! ## Data model (`parser.py` dataclasses) -/

/-- `parser.RequestType`. -/
inductive RequestType where
  | script | image | stylesheet | font | media | document | subdocument
  | xmlhttprequest | websocket | other
deriving DecidableEq, Repr

/-- `parser.REQUEST_TYPE_MAP`. -/
def requestTypeMap (s : Str) : Option RequestType :=
  if s = ofStr "script" then some .script
  else if s = ofStr "image" then some .image
  else if s = ofStr "stylesheet" then some .stylesheet
  else if s = ofStr "font" then some .font
  else if s = ofStr "media" then some .media
  else if s = ofStr "document" then some .document
  else if s = ofStr "subdocument" then some .subdocument
  else if s = ofStr "xmlhttprequest" then some .xmlhttprequest
  else if s = ofStr "xhr" then some .xmlhttprequest
  else if s = ofStr "websocket" then some .websocket
  else if s = ofStr "other" then some .other
  else if s = ofStr "object" then some .other
  else if s = ofStr "ping" then some .other
  else none

/-- `parser.NetworkFilter`.  The lazily compiled `_regex` cache is not a
field: its value is a pure function of `pattern` and `is_regex`
(`get_regex` below), so caching is observationally irrelevant. -/
structure NetworkFilter where
  raw : Str
  pattern : Str
  is_exception : Bool := false
  is_hostname_anchor : Bool := false
  is_left_anchor : Bool := false
  is_right_anchor : Bool := false
  is_plain : Bool := false
  is_regex : Bool := false
  hostname : Option Str := none
  third_party : Option Bool := none
  request_types : List RequestType := []
  excluded_types : List RequestType := []
  domains : List Str := []
  excluded_domains : List Str := []
  redirect : Option Str := none
deriving DecidableEq, Repr

/-- `parser.CosmeticFilter`. -/
structure CosmeticFilter where
  raw : Str
  selector : Str
  is_exception : Bool := false
  domains : List Str := []
  excluded_domains : List Str := []
deriving DecidableEq, Repr

/-- `parser.ScriptletFilter`. -/
structure ScriptletFilter where
  raw : Str
  scriptlet_name : Str
  args : List Str := []
  domains : List Str := []
  excluded_domains : List Str := []
deriving DecidableEq, Repr

/-- Python `set.add`: insert without duplicating (membership-faithful). -/
def setAdd [BEq α] (s : List α) (a : α) : List α :=
  if s.contains a then s else s ++ [a]

/-! ## The regex fragment produced by `parser._pattern_to_regex`

For a non-regex filter pattern the escape loop emits only:
case-insensitive literal characters, `.*` for `*`, the separator class
`(?:[^\w\-.]|$)` for `^`, and `^` / `$` for `|` at the first / last
position.  `RTok` is that alphabet and `matchTokens`/`regexSearchTokens`
its `re.search` semantics (a Python `$` also matches just before a
trailing newline). -/

inductive RTok where
  | lit (c : Char)
  | star
  | sep
  | startAnchor
  | endAnchor
deriving DecidableEq, Repr

/-- The escape loop of `parser._pattern_to_regex` (non-regex case),
character by character. -/
def patternToTokens (pattern : Str) : List RTok :=
  (List.range pattern.length).map (fun i =>
    let c := pattern.getD i ' '
    if c = '*' then .star
    else if c = '^' then .sep
    else if c = '|' then
      if i = 0 then .startAnchor
      else if i = pattern.length - 1 then .endAnchor
      else .lit '|'
    else .lit c)

/-- `\w` of the `re` module (ASCII approximation) . -/
def isWordChar (c : Char) : Bool := c.isAlphanum || c = '_'

/-- Membership in the separator class `[^\w\-.]`. -/
def sepChar (c : Char) : Bool := !(isWordChar c || c = '-' || c = '.')

/-- Where Python `$` matches: at the end, or before a trailing newline. -/
def dollarHere (s : Str) : Bool := s.isEmpty || s = [newlineChar]

/-- Matching a token list at the current position (IGNORECASE). -/
def matchTokens : List RTok → Str → Bool
  | [], _ => true
  | .lit c :: ts, s =>
    match s with
    | [] => false
    | d :: rest => c.toLower == d.toLower && matchTokens ts rest
  | .star :: ts, s => s.tails.any (fun s2 => matchTokens ts s2)
  | .sep :: ts, s =>
    (match s with
     | [] => false
     | d :: rest => sepChar d && matchTokens ts rest)
    || (dollarHere s && matchTokens ts s)
  | .startAnchor :: ts, s => matchTokens ts s
  | .endAnchor :: ts, s => dollarHere s && matchTokens ts s

/-- `re.search` over a translated pattern: try every start position; a
leading `^` (from `|` at position 0, no MULTILINE) pins the match to the
start. -/
def regexSearchTokens (toks : List RTok) (s : Str) : Bool :=
  match toks with
  | .startAnchor :: rest => matchTokens rest s
  | _ => s.tails.any (fun s2 => matchTokens toks s2)

/-- Slash stripping in `parser._pattern_to_regex` for `is_regex` patterns. -/
def stripSlashes (p : Str) : Str :=
  if p.head? = some '/' && p.getLast? = some '/' then (p.drop 1).dropLast else p

/-- `NetworkFilter.get_regex` followed by `.search(url)`, as used by
`matcher._pattern_matches`.  `rawSearch` abstracts the Python `re`
engine on raw `/…/` filter bodies (including compile failure, which the
caller turns into `False`). -/
def getRegexSearch (rawSearch : Str → Str → Bool) (f : NetworkFilter) (url : Str) : Bool :=
  if f.is_regex then rawSearch (stripSlashes f.pattern) url
  else regexSearchTokens (patternToTokens f.pattern) url

/-! ## Parser (`parser.py`) -/

/-- `parser._extract_hostname_from_pattern`. -/
def extractHostnameFromPattern (pattern : Str) : Option Str :=
  if pattern.isEmpty then none
  else
    let hostname :=
      pattern.takeWhile (fun c => !(c = '^' || c = '/' || c = '*' || c = '?' || c = '$'))
    if !hostname.isEmpty && hostname.contains '.' && hostname.head? ≠ some '.' then
      some (lower hostname)
    else none

/-- `parser._parse_domains`: split a `domain=` value on `|` into included
and excluded sets (leading `~` per token). -/
def parseDomains (domainStr : Str) : List Str × List Str :=
  (splitOnC '|' domainStr).foldl
    (fun (acc : List Str × List Str) piece =>
      let domain := lower (stripWs piece)
      if domain.isEmpty then acc
      else if domain.head? = some '~' then (acc.1, setAdd acc.2 (domain.drop 1))
      else (setAdd acc.1 domain, acc.2))
    ([], [])

/-- One iteration of the loop in `parser._parse_modifiers`. -/
def applyModifier (f : NetworkFilter) (raw : Str) : NetworkFilter :=
  let modifier := lower (stripWs raw)
  if modifier.isEmpty then f
  else
    let negated := modifier.head? = some '~'
    let modifier := if negated then modifier.drop 1 else modifier
    if (ofStr "domain=").isPrefixOf modifier then
      let (inc, exc) := parseDomains (modifier.drop 7)
      { f with domains := inc.foldl setAdd f.domains,
               excluded_domains := exc.foldl setAdd f.excluded_domains }
    else if (ofStr "redirect=").isPrefixOf modifier then
      { f with redirect := some (modifier.drop 9) }
    else if (ofStr "redirect-rule=").isPrefixOf modifier then
      { f with redirect := some (modifier.drop 14) }
    else if modifier = ofStr "third-party" || modifier = ofStr "3p" then
      { f with third_party := some (!negated) }
    else if modifier = ofStr "first-party" || modifier = ofStr "1p" then
      { f with third_party := some negated }
    else
      match requestTypeMap modifier with
      | some rt =>
        if negated then { f with excluded_types := setAdd f.excluded_types rt }
        else { f with request_types := setAdd f.request_types rt }
      | none => f

/-- `parser._parse_modifiers`: fold over the comma-separated tokens. -/
def parseModifiers (modifierStr : Str) (f : NetworkFilter) : NetworkFilter :=
  (splitOnC ',' modifierStr).foldl applyModifier f

/-- Python `s.rfind(c)` restricted to a present character: the index of
the last occurrence. -/
def rfindIdx (c : Char) (s : Str) : Option Nat :=
  match s.reverse.findIdx? (· = c) with
  | some i => some (s.length - 1 - i)
  | none => none

/-- Python `s.find(c, start)`. -/
def findIdxFrom (c : Char) (s : Str) (start : Nat) : Option Nat :=
  match (s.drop start).findIdx? (· = c) with
  | some i => some (start + i)
  | none => none

/-- The stripping phase of `parser.parse_network_filter`: remove a
leading `@@`, locate the modifier separator (`$` after the last `/` when
the line looks like a regex, else the last `$`) and split it off.
Returns `(is_exception, modifier string, remaining pattern text)`. -/
def networkStrip (line0 : Str) : Bool × Str × Str :=
  let isException := (ofStr "@@").isPrefixOf line0
  let line1 := if isException then line0.drop 2 else line0
  if line1.contains '$' then
    let modifierPos :=
      if line1.head? = some '/' && 2 ≤ line1.count '/' then
        match rfindIdx '/' line1 with
        | some lastSlash => findIdxFrom '$' line1 lastSlash
        | none => none
      else rfindIdx '$' line1
    match modifierPos with
    | some p => (isException, line1.drop (p + 1), line1.take p)
    | none => (isException, [], line1)
  else (isException, [], line1)

/-- `parser.parse_network_filter`. -/
def parseNetworkFilter (line0 : Str) : Option NetworkFilter :=
  let (isException, modifierStr, line2) := networkStrip line0
  if line2.isEmpty then none
  else
    let isHostnameAnchor := (ofStr "||").isPrefixOf line2
    let line3 := if isHostnameAnchor then line2.drop 2 else line2
    let isLeftAnchor := !isHostnameAnchor && line3.head? = some '|'
    let line4 := if isLeftAnchor then line3.drop 1 else line3
    let isRightAnchor := line4.getLast? = some '|'
    let line5 := if isRightAnchor then line4.dropLast else line4
    let isRegex := line5.head? = some '/' && line5.getLast? = some '/' && 2 < line5.length
    let isPlain := !isRegex && !line5.contains '*' && !line5.contains '^'
    let hostname := if isHostnameAnchor then extractHostnameFromPattern line5 else none
    let f : NetworkFilter :=
      { raw := line5, pattern := line5, is_exception := isException,
        is_hostname_anchor := isHostnameAnchor, is_left_anchor := isLeftAnchor,
        is_right_anchor := isRightAnchor, is_plain := isPlain, is_regex := isRegex,
        hostname := hostname }
    some (if modifierStr.isEmpty then f else parseModifiers modifierStr f)

/-- First index at which `sep` occurs as a sublist of `s`
(Python `s.find(sep)` for a multi-character separator). -/
def findSubIdx (sep s : Str) : Option Nat :=
  (List.range (s.length + 1)).find? (fun i => sep.isPrefixOf (s.drop i))

/-- Python `sub in s` (substring containment). -/
def strContains (s sub : Str) : Bool := (findSubIdx sub s).isSome

/-- Python `s.split(sep, 1)` when `sep` occurs in `s`. -/
def splitOnceAt (sep s : Str) : Option (Str × Str) :=
  match findSubIdx sep s with
  | some i => some (s.take i, s.drop (i + sep.length))
  | none => none

/-- The domain loop shared by `parse_cosmetic_filter` and
`parse_scriptlet_filter`: comma-separated, stripped, lowercased,
`~`-negated tokens. -/
def parseDomainPart (domainPart : Str) : List Str × List Str :=
  if domainPart.isEmpty then ([], [])
  else
    (splitOnC ',' domainPart).foldl
      (fun (acc : List Str × List Str) piece =>
        let domain := lower (stripWs piece)
        if domain.isEmpty then acc
        else if domain.head? = some '~' then (acc.1, setAdd acc.2 (domain.drop 1))
        else (setAdd acc.1 domain, acc.2))
      ([], [])

/-- The procedural-selector prefixes rejected by `parse_cosmetic_filter`. -/
def proceduralPrefixes : List Str :=
  [ofStr ":has(", ofStr ":xpath(", ofStr ":not(", ofStr ":matches-css(", ofStr "+js("]

/-- `parser.parse_cosmetic_filter`. -/
def parseCosmeticFilter (line : Str) : Option CosmeticFilter :=
  let isException := strContains line (ofStr "#@#")
  let sep? : Option Str :=
    if isException then some (ofStr "#@#")
    else if strContains line (ofStr "##") then some (ofStr "##")
    else none
  match sep? with
  | none => none
  | some sep =>
    match splitOnceAt sep line with
    | none => none
    | some (domainPart, rawSelector) =>
      let selector := stripWs rawSelector
      if selector.isEmpty then none
      else if proceduralPrefixes.any (fun p => p.isPrefixOf selector) then none
      else
        let (inc, exc) := parseDomainPart domainPart
        some { raw := line, selector := selector, is_exception := isException,
               domains := inc, excluded_domains := exc }

/-- `parser.parse_scriptlet_filter`. -/
def parseScriptletFilter (line : Str) : Option ScriptletFilter :=
  match findSubIdx (ofStr "##+js(") line with
  | none => none
  | some sepIdx =>
    let domainPart := line.take sepIdx
    let scriptletPart := line.drop (sepIdx + 6)
    if scriptletPart.getLast? ≠ some ')' then none
    else
      let scriptletPart := scriptletPart.dropLast
      match splitOnC ',' scriptletPart with
      | [] => none
      | name0 :: rest =>
        let (inc, exc) := parseDomainPart domainPart
        some { raw := line, scriptlet_name := stripWs name0,
               args := rest.map stripWs, domains := inc, excluded_domains := exc }

/-! ## Matcher (`matcher.py`) -/

/-- `dict.get(k, [])` on an association list. -/
def idxGet [BEq κ] (idx : List (κ × List α)) (k : κ) : List α :=
  match idx.find? (fun e => e.1 == k) with
  | some e => e.2
  | none => []

/-- `index.setdefault(k, []).append(f)` on an association list: extend
the first entry with that key, or append a fresh entry. -/
def idxAdd [BEq κ] (idx : List (κ × List α)) (k : κ) (f : α) : List (κ × List α) :=
  match idx with
  | [] => [(k, [f])]
  | (k2, fs) :: rest =>
    if k2 == k then (k2, fs ++ [f]) :: rest else (k2, fs) :: idxAdd rest k f

/-- `matcher.MatchResult`. -/
structure MatchResult where
  blocked : Bool
  filter : Option NetworkFilter := none
  redirect : Option Str := none
deriving DecidableEq, Repr

/-- `matcher.NetworkFilterMatcher` state. -/
structure NetworkFilterMatcher where
  hostname_index : List (Str × List NetworkFilter) := []
  exception_hostname_index : List (Str × List NetworkFilter) := []
  generic_filters : List NetworkFilter := []
  generic_exceptions : List NetworkFilter := []
  total_filters : Nat := 0
  hostname_indexed : Nat := 0
deriving Repr

/-- `NetworkFilterMatcher._add_filter`. -/
def addFilter (m : NetworkFilterMatcher) (f : NetworkFilter) : NetworkFilterMatcher :=
  let m := { m with total_filters := m.total_filters + 1 }
  if f.is_hostname_anchor && truthy f.hostname then
    let h := f.hostname.getD []
    if f.is_exception then
      { m with exception_hostname_index := idxAdd m.exception_hostname_index h f,
               hostname_indexed := m.hostname_indexed + 1 }
    else
      { m with hostname_index := idxAdd m.hostname_index h f,
               hostname_indexed := m.hostname_indexed + 1 }
  else if f.is_exception then
    { m with generic_exceptions := m.generic_exceptions ++ [f] }
  else
    { m with generic_filters := m.generic_filters ++ [f] }

/-- `NetworkFilterMatcher.add_filters`. -/
def addFilters (m : NetworkFilterMatcher) (fs : List NetworkFilter) : NetworkFilterMatcher :=
  fs.foldl addFilter m

/-- `NetworkFilterMatcher._pattern_matches`. -/
def patternMatches (rawSearch : Str → Str → Bool) (f : NetworkFilter) (url : Str) : Bool :=
  let hostCheck : Bool :=
    if f.is_hostname_anchor then
      let hostname := f.hostname.getD []
      let urlHost := urlHostnameOf url
      urlHost = hostname || ('.' :: hostname).isSuffixOf urlHost
    else true
  if !hostCheck then false
  else if f.is_plain then
    let pat :=
      if f.is_hostname_anchor && truthy f.hostname then
        let h := f.hostname.getD []
        if h.isPrefixOf f.pattern then f.pattern.drop h.length else f.pattern
      else f.pattern
    if pat.isEmpty then true else strContains (lower url) (lower pat)
  else getRegexSearch rawSearch f url

/-- `NetworkFilterMatcher._filter_matches`.  The `hostname` argument is
passed by the callers but, exactly as in the source, not used. -/
def filterMatches (rawSearch : Str → Str → Bool) (f : NetworkFilter) (url : Str)
    (hostname : Str) (requestType : Option RequestType)
    (sourceHostname : Option Str) (isTP : Bool) : Bool :=
  if f.third_party.isSome && f.third_party ≠ some isTP then false
  else if !f.request_types.isEmpty &&
      !(match requestType with
        | some rt => f.request_types.contains rt
        | none => false) then false
  else if (match requestType with
           | some rt => f.excluded_types.contains rt
           | none => false) then false
  else if truthy sourceHostname &&
      !domainMatches (sourceHostname.getD []) f.domains f.excluded_domains then false
  else patternMatches rawSearch f url

/-- `NetworkFilterMatcher._find_blocking_filter`. -/
def findBlockingFilter (rawSearch : Str → Str → Bool) (m : NetworkFilterMatcher)
    (url : Str) (hostname : Str) (requestType : Option RequestType)
    (sourceHostname : Option Str) (isTP : Bool) : Option NetworkFilter :=
  match (getHostnameVariants hostname).findSome? (fun v =>
      (idxGet m.hostname_index v).find? (fun f =>
        filterMatches rawSearch f url hostname requestType sourceHostname isTP)) with
  | some f => some f
  | none =>
    m.generic_filters.find? (fun f =>
      filterMatches rawSearch f url hostname requestType sourceHostname isTP)

/-- `NetworkFilterMatcher._find_exception`. -/
def findException (rawSearch : Str → Str → Bool) (m : NetworkFilterMatcher)
    (url : Str) (hostname : Str) (requestType : Option RequestType)
    (sourceHostname : Option Str) (isTP : Bool) : Option NetworkFilter :=
  match (getHostnameVariants hostname).findSome? (fun v =>
      (idxGet m.exception_hostname_index v).find? (fun f =>
        filterMatches rawSearch f url hostname requestType sourceHostname isTP)) with
  | some f => some f
  | none =>
    m.generic_exceptions.find? (fun f =>
      filterMatches rawSearch f url hostname requestType sourceHostname isTP)

/-- `NetworkFilterMatcher.should_block`.  (In Python `urlparse` is total
on strings in all cases relevant here, so the `except` fail-open branch
has no counterpart.) -/
def shouldBlock (rawSearch : Str → Str → Bool) (m : NetworkFilterMatcher) (url : Str)
    (requestType : Option RequestType) (sourceHostname : Option Str) : MatchResult :=
  let hostname := urlHostnameOf url
  let isTP := isThirdParty hostname sourceHostname
  match findBlockingFilter rawSearch m url hostname requestType sourceHostname isTP with
  | none => { blocked := false }
  | some bf =>
    match findException rawSearch m url hostname requestType sourceHostname isTP with
    | some e => { blocked := false, filter := some e }
    | none =>
      if truthy bf.redirect then
        { blocked := true, filter := some bf, redirect := bf.redirect }
      else { blocked := true, filter := some bf }

/-- The full request-match predicate at the hostname and third-party
flag that `should_block` computes for a request. -/
def matchesRequest (rawSearch : Str → Str → Bool) (f : NetworkFilter) (url : Str)
    (requestType : Option RequestType) (sourceHostname : Option Str) : Bool :=
  filterMatches rawSearch f url (urlHostnameOf url) requestType sourceHostname
    (isThirdParty (urlHostnameOf url) sourceHostname)

/-! ## Cosmetic filter handler (`cosmetic.py`) -/

/-- `cosmetic._domain_matches` (unlike the matcher variant, no early
pass when both sets are empty — the include check still applies). -/
def cosmeticDomainMatches (hostname : Str) (included excluded : List Str) : Bool :=
  let variants := getHostnameVariants (lower hostname)
  if variants.any (fun v => excluded.contains v) then false
  else if included.isEmpty then true
  else variants.any (fun v => included.contains v)

/-- `cosmetic.CosmeticFilterHandler` state. -/
structure CosmeticFilterHandler where
  global_filters : List CosmeticFilter := []
  global_exceptions : List CosmeticFilter := []
  domain_filters : List (Str × List CosmeticFilter) := []
  domain_exceptions : List (Str × List CosmeticFilter) := []
  total_filters : Nat := 0
deriving Repr

/-- `CosmeticFilterHandler._add_filter`. -/
def addCosmeticFilter (h : CosmeticFilterHandler) (f : CosmeticFilter) : CosmeticFilterHandler :=
  let h := { h with total_filters := h.total_filters + 1 }
  if f.domains.isEmpty && f.excluded_domains.isEmpty then
    if f.is_exception then { h with global_exceptions := h.global_exceptions ++ [f] }
    else { h with global_filters := h.global_filters ++ [f] }
  else if !f.domains.isEmpty then
    if f.is_exception then
      { h with domain_exceptions :=
          f.domains.foldl (fun idx d => idxAdd idx d f) h.domain_exceptions }
    else
      { h with domain_filters :=
          f.domains.foldl (fun idx d => idxAdd idx d f) h.domain_filters }
  else
    if f.is_exception then { h with global_exceptions := h.global_exceptions ++ [f] }
    else { h with global_filters := h.global_filters ++ [f] }

/-- `CosmeticFilterHandler.add_filters`. -/
def addCosmeticFilters (h : CosmeticFilterHandler) (fs : List CosmeticFilter) :
    CosmeticFilterHandler :=
  fs.foldl addCosmeticFilter h

/-- `CosmeticFilterHandler.get_selectors_for_domain`. -/
def getSelectorsForDomain (h : CosmeticFilterHandler) (hostname0 : Str) : List Str :=
  let hostname := lower hostname0
  let exceptionSelectors :=
    (h.global_exceptions.filter (fun f =>
        cosmeticDomainMatches hostname f.domains f.excluded_domains)).map (·.selector)
    ++ ((getHostnameVariants hostname).flatMap (fun v =>
        (idxGet h.domain_exceptions v).filter (fun f =>
          cosmeticDomainMatches hostname f.domains f.excluded_domains))).map (·.selector)
  let globals :=
    (h.global_filters.filter (fun f =>
        !exceptionSelectors.contains f.selector &&
        cosmeticDomainMatches hostname f.domains f.excluded_domains)).map (·.selector)
  let domainSpecific :=
    ((getHostnameVariants hostname).flatMap (fun v =>
        (idxGet h.domain_filters v).filter (fun f =>
          !exceptionSelectors.contains f.selector &&
          cosmeticDomainMatches hostname f.domains f.excluded_domains))).map (·.selector)
  globals ++ domainSpecific

/-- The per-selector skip test in `get_css_for_domain`:
`'"' in sel or ("'" in sel and "\\" not in sel)`. -/
def cssSkipSelector (sel : Str) : Bool :=
  sel.contains quote2 || (sel.contains quote1 && !sel.contains backslash)

/-- `range(0, len(l), 100)` slicing, with a fuel argument as a
structural-termination device (each step consumes at least one element,
so `l.length` fuel always suffices). -/
def chunksFuel (fuel : Nat) (l : List α) : List (List α) :=
  match fuel, l with
  | _, [] => []
  | 0, _ :: _ => []
  | fuel + 1, x :: rest => (x :: rest).take 100 :: chunksFuel fuel ((x :: rest).drop 100)

/-- `range(0, len(l), 100)` batching: `[l[0:100], l[100:200], …]`. -/
def chunks100 (l : List α) : List (List α) := chunksFuel l.length l

/-- `CosmeticFilterHandler.get_css_for_domain`. -/
def getCssForDomain (h : CosmeticFilterHandler) (hostname : Str) : Str :=
  let selectors := getSelectorsForDomain h hostname
  if selectors.isEmpty then []
  else
    let cssRules := (chunks100 selectors).filterMap (fun batch =>
      let safeSelectors := batch.filter (fun sel => !cssSkipSelector sel)
      if safeSelectors.isEmpty then none
      else some (joinSep (ofStr ", ") safeSelectors
                 ++ ofStr " \x7b display: none !important; \x7d"))
    joinSep [newlineChar] cssRules

/-! ## Scriptlet handler (`scriptlets.py`) -/

/-- `scriptlets._domain_matches`: with no included domain the filter
never matches. -/
def scriptletDomainMatches (hostname : Str) (included excluded : List Str) : Bool :=
  let variants := getHostnameVariants (lower hostname)
  if variants.any (fun v => excluded.contains v) then false
  else if included.isEmpty then false
  else variants.any (fun v => included.contains v)

/-- `scriptlets.SCRIPTLET_ALIASES`. -/
def scriptletAliases : List (Str × Str) :=
  [(ofStr "aopr", ofStr "abort-on-property-read"),
   (ofStr "aopw", ofStr "abort-on-property-write"),
   (ofStr "set", ofStr "set-constant"),
   (ofStr "rc", ofStr "remove-class"),
   (ofStr "nostif", ofStr "no-setTimeout-if"),
   (ofStr "nosiif", ofStr "no-setInterval-if"),
   (ofStr "aeld", ofStr "addEventListener-defuser"),
   (ofStr "nano-setInterval-booster", ofStr "no-setInterval-if"),
   (ofStr "nano-setTimeout-booster", ofStr "no-setTimeout-if")]

/-- `scriptlets.ScriptletHandler` state. -/
structure ScriptletHandler where
  domain_scriptlets : List (Str × List ScriptletFilter) := []
  total_scriptlets : Nat := 0
deriving Repr

/-- `ScriptletHandler._add_filter`: indexed only under included domains. -/
def addScriptletFilter (h : ScriptletHandler) (f : ScriptletFilter) : ScriptletHandler :=
  { h with total_scriptlets := h.total_scriptlets + 1,
           domain_scriptlets :=
             f.domains.foldl (fun idx d => idxAdd idx d f) h.domain_scriptlets }

/-- `ScriptletHandler.add_filters`. -/
def addScriptletFilters (h : ScriptletHandler) (fs : List ScriptletFilter) : ScriptletHandler :=
  fs.foldl addScriptletFilter h

/-- `ScriptletHandler.get_scripts_for_domain`.  The `SCRIPTLETS`
template registry holds opaque JavaScript source text; it enters only
through name lookup and string splicing, so it is abstracted as
`impls : Str → Option Str`. -/
def getScriptsForDomain (impls : Str → Option Str) (h : ScriptletHandler)
    (hostname0 : Str) : List Str :=
  let hostname := lower hostname0
  (getHostnameVariants hostname).flatMap (fun v =>
    (idxGet h.domain_scriptlets v).filterMap (fun f =>
      if !scriptletDomainMatches hostname f.domains f.excluded_domains then none
      else
        let name :=
          match scriptletAliases.find? (fun e => e.1 == f.scriptlet_name) with
          | some e => e.2
          | none => f.scriptlet_name
        match impls name with
        | none => none
        | some impl =>
          let argsStr := joinSep (ofStr ", ") (f.args.map (fun a => quote1 :: a ++ [quote1]))
          some ('(' :: impl ++ ')' :: '(' :: argsStr ++ [')', ';'])))

/-! ## Redirect resources (`resources.py`) -/

/-- The keys of `resources.RESOURCES` paired with their content types
(the resource bytes are opaque to every property considered here). -/
def redirectResources : List (Str × Str) :=
  [(ofStr "1x1.gif", ofStr "image/gif"),
   (ofStr "2x2.png", ofStr "image/png"),
   (ofStr "3x2.png", ofStr "image/png"),
   (ofStr "32x32.png", ofStr "image/png"),
   (ofStr "noopjs", ofStr "application/javascript"),
   (ofStr "noopjson", ofStr "application/json"),
   (ofStr "nooptext", ofStr "text/plain"),
   (ofStr "noopframe", ofStr "text/html"),
   (ofStr "noopmp3-0.1s", ofStr "audio/mpeg"),
   (ofStr "noopmp4-1s", ofStr "video/mp4"),
   (ofStr "google-analytics.com/analytics.js", ofStr "application/javascript"),
   (ofStr "googletagmanager.com/gtag/js", ofStr "application/javascript"),
   (ofStr "googletagmanager.com/gtm.js", ofStr "application/javascript"),
   (ofStr "doubleclick.net/instream/ad_status.js", ofStr "application/javascript")]

/-- `resources.RESOURCE_ALIASES`. -/
def redirectResourceAliases : List (Str × Str) :=
  [(ofStr "1x1-transparent.gif", ofStr "1x1.gif"),
   (ofStr "1x1.transparent.gif", ofStr "1x1.gif"),
   (ofStr "noop-1x1.gif", ofStr "1x1.gif"),
   (ofStr "2x2-transparent.png", ofStr "2x2.png"),
   (ofStr "2x2.transparent.png", ofStr "2x2.png"),
   (ofStr "noop-2x2.png", ofStr "2x2.png"),
   (ofStr "3x2-transparent.png", ofStr "3x2.png"),
   (ofStr "3x2.transparent.png", ofStr "3x2.png"),
   (ofStr "32x32-transparent.png", ofStr "32x32.png"),
   (ofStr "32x32.transparent.png", ofStr "32x32.png"),
   (ofStr "noop.js", ofStr "noopjs"),
   (ofStr "noopjs.js", ofStr "noopjs"),
   (ofStr "noop-vmap1.0.xml", ofStr "nooptext"),
   (ofStr "noop-0.1s.mp3", ofStr "noopmp3-0.1s"),
   (ofStr "noopmp3", ofStr "noopmp3-0.1s"),
   (ofStr "noop-1s.mp4", ofStr "noopmp4-1s"),
   (ofStr "noopmp4", ofStr "noopmp4-1s"),
   (ofStr "noop.html", ofStr "noopframe"),
   (ofStr "noopframe.html", ofStr "noopframe"),
   (ofStr "google-analytics_analytics.js", ofStr "google-analytics.com/analytics.js"),
   (ofStr "googlesyndication_adsbygoogle.js", ofStr "noopjs"),
   (ofStr "googletagservices_gpt.js", ofStr "noopjs"),
   (ofStr "scorecardresearch_beacon.js", ofStr "noopjs"),
   (ofStr "outbrain-widget.js", ofStr "noopjs"),
   (ofStr "ampproject_v0.js", ofStr "noopjs"),
   (ofStr "amazon_ads.js", ofStr "noopjs"),
   (ofStr "monkeybroker.js", ofStr "noopjs"),
   (ofStr "nobab.js", ofStr "noopjs"),
   (ofStr "nobab2.js", ofStr "noopjs")]

/-- `resources.get_redirect_resource` (content type returned, bytes opaque). -/
def getRedirectResource (name0 : Str) : Option Str :=
  let name :=
    match redirectResourceAliases.find? (fun e => e.1 == name0) with
    | some e => e.2
    | none => name0
  (redirectResources.find? (fun e => e.1 == name)).map (·.2)

/-! ## Engine route handling (`engine.py`) -/

/-- `engine.PLAYWRIGHT_TYPE_MAP` with its `.get(…, RequestType.OTHER)`
default. -/
def playwrightTypeMap (s : Str) : RequestType :=
  if s = ofStr "document" then .document
  else if s = ofStr "stylesheet" then .stylesheet
  else if s = ofStr "image" then .image
  else if s = ofStr "media" then .media
  else if s = ofStr "font" then .font
  else if s = ofStr "script" then .script
  else if s = ofStr "texttrack" then .other
  else if s = ofStr "xhr" then .xmlhttprequest
  else if s = ofStr "fetch" then .xmlhttprequest
  else if s = ofStr "eventsource" then .other
  else if s = ofStr "websocket" then .websocket
  else if s = ofStr "manifest" then .other
  else if s = ofStr "other" then .other
  else .other

/-- What `AdblockEngine._handle_route` does with the route. -/
inductive RouteAction where
  | continued
  | fulfilled (name : Str)
  | aborted
deriving DecidableEq, Repr

/-- The engine's counters. -/
structure EngineCounters where
  checked : Nat := 0
  blocked : Nat := 0
  redirected : Nat := 0
deriving DecidableEq, Repr

/-- `AdblockEngine._handle_route`: counter updates and the realized
action.  The Playwright calls `route.continue_`, `route.fulfill` and
`route.abort` are modelled as succeeding (their `try/except` wrappers
only log); the frame-derived source hostname is an input. -/
def handleRoute (rawSearch : Str → Str → Bool) (m : NetworkFilterMatcher)
    (c : EngineCounters) (url : Str) (resourceType : Str)
    (sourceHostname : Option Str) : EngineCounters × RouteAction :=
  if !((ofStr "http://").isPrefixOf url || (ofStr "https://").isPrefixOf url) then
    (c, .continued)
  else
    let c := { c with checked := c.checked + 1 }
    let rt := playwrightTypeMap resourceType
    let result := shouldBlock rawSearch m url (some rt) sourceHostname
    if result.blocked then
      if truthy result.redirect then
        match getRedirectResource (result.redirect.getD []) with
        | some _ =>
          ({ c with redirected := c.redirected + 1 }, .fulfilled (result.redirect.getD []))
        | none => ({ c with blocked := c.blocked + 1 }, .aborted)
      else ({ c with blocked := c.blocked + 1 }, .aborted)
    else (c, .continued)

/-! ## Specification-side definitions used by individual claims -/

/-- A fixed instantiation of the abstract raw-regex engine, used in
concrete statements whose filters never take the `/…/` path. -/
def noRawRegex : Str → Str → Bool := fun _ _ => false

/-- For C5: the decision for a request is a Redirect whose resource
name resolves in the redirect-resource table. -/
def redirAvailable (rawSearch : Str → Str → Bool) (m : NetworkFilterMatcher)
    (url : Str) (resourceType : Str) (src : Option Str) : Bool :=
  let r := shouldBlock rawSearch m url (some (playwrightTypeMap resourceType)) src
  r.blocked && truthy r.redirect && (getRedirectResource (r.redirect.getD [])).isSome

/-- Spec wording of C6: the literal reading of "contains an unescaped
quote character" — a `'` or `"` not immediately preceded by a `\`. -/
def containsUnescapedQuote : Str → Bool
  | [] => false
  | c :: rest =>
    if c = backslash then
      match rest with
      | [] => false
      | _ :: r2 => containsUnescapedQuote r2
    else (c = quote1 || c = quote2) || containsUnescapedQuote rest

/-- The skip predicate actually implemented by `get_css_for_domain`,
spelled out: a double quote anywhere, or a single quote with no
backslash anywhere. -/
def specDropSelector (sel : Str) : Bool :=
  sel.contains quote2 || (sel.contains quote1 && !sel.contains backslash)

/-- Spec-side batching for the amended C6: the i-th group of at most
100 selectors, in closed form (no recursion). -/
def specBatches (l : List α) : List (List α) :=
  (List.range ((l.length + 99) / 100)).map (fun i => (l.drop (100 * i)).take 100)

/-- The amended C6 description of `get_css_for_domain`, built from the
amended sentence: take the selector list in groups of at most 100; in
each group drop exactly the selectors hit by `specDropSelector`; join
the survivors with `", "` and wrap them in a `display: none` rule; emit
no rule for a group with no survivors; join the rules with newlines;
the empty list yields the empty string. -/
def cssSpec (selectors : List Str) : Str :=
  joinSep [newlineChar] ((specBatches selectors).filterMap (fun batch =>
    let survivors := batch.filter (fun s => !specDropSelector s)
    if survivors.isEmpty then none
    else some (joinSep (ofStr ", ") survivors
               ++ ofStr " \x7b display: none !important; \x7d")))

/-- All filters held by a matcher, across its four containers. -/
def flattenIdx (idx : List (κ × List α)) : List α := idx.flatMap (·.2)

/-- The four containers of a `NetworkFilterMatcher`, flattened. -/
def allFilters (m : NetworkFilterMatcher) : List NetworkFilter :=
  flattenIdx m.hostname_index ++ flattenIdx m.exception_hostname_index
    ++ m.generic_filters ++ m.generic_exceptions

/-! ## Helper lemmas: Python `split` / `join` and hostname variants -/

theorem splitOnC_ne_nil (sep : Char) (s : Str) : splitOnC sep s ≠ [] := by
  cases s with
  | nil => simp [splitOnC]
  | cons c rest =>
    simp only [splitOnC]
    split
    · simp
    · cases h : splitOnC sep rest <;> simp

theorem splitOnC_append (sep : Char) (t h : Str) :
    splitOnC sep (t ++ sep :: h) = splitOnC sep t ++ splitOnC sep h := by
  induction t with
  | nil => simp [splitOnC]
  | cons c t' ih =>
    by_cases hc : c = sep
    · subst hc
      simp [splitOnC, ih]
    · simp only [List.cons_append, splitOnC, if_neg hc, List.append_eq]
      rw [ih]
      cases ht' : splitOnC sep t' with
      | nil => exact absurd ht' (splitOnC_ne_nil sep t')
      | cons p ps => simp [ht']

theorem joinSep_splitOnC (sep : Char) (s : Str) : joinSep [sep] (splitOnC sep s) = s := by
  induction s with
  | nil => simp [splitOnC, joinSep]
  | cons c rest ih =>
    by_cases hc : c = sep
    · subst hc
      simp only [splitOnC, if_pos rfl]
      cases hr : splitOnC c rest with
      | nil => exact absurd hr (splitOnC_ne_nil c rest)
      | cons p ps =>
        rw [hr] at ih
        simpa [joinSep] using ih
    · simp only [splitOnC, if_neg hc]
      cases hr : splitOnC sep rest with
      | nil => exact absurd hr (splitOnC_ne_nil sep rest)
      | cons p ps =>
        rw [hr] at ih
        cases ps with
        | nil => simpa [joinSep] using ih
        | cons q qs =>
          simp only [joinSep] at ih ⊢
          simpa using ih

theorem joinSep_mem_suffixJoins (sep : Char) (ts ps : List Str) (hps : ps ≠ []) :
    joinSep [sep] ps ∈ suffixJoins sep (ts ++ ps) := by
  induction ts with
  | nil =>
    cases ps with
    | nil => exact absurd rfl hps
    | cons p ps' => simp [suffixJoins]
  | cons t ts' ih =>
    simp only [List.cons_append, suffixJoins]
    exact List.mem_cons_of_mem _ ih

theorem self_mem_getHostnameVariants (s : Str) : s ∈ getHostnameVariants s := by
  have h := joinSep_mem_suffixJoins '.' [] (splitOnC '.' s) (splitOnC_ne_nil _ _)
  simpa [getHostnameVariants, joinSep_splitOnC] using h

theorem mem_variants_of_dotSuffix (h s : Str) (hsuf : ('.' :: h) <:+ s) :
    h ∈ getHostnameVariants s := by
  obtain ⟨t, ht⟩ := hsuf
  have hmem := joinSep_mem_suffixJoins '.' (splitOnC '.' t) (splitOnC '.' h)
    (splitOnC_ne_nil _ _)
  rw [joinSep_splitOnC] at hmem
  rw [← ht, getHostnameVariants, splitOnC_append]
  exact hmem

/-! ## Helper lemmas: association-list indices -/

theorem idxGet_nil [BEq κ] (k : κ) : idxGet ([] : List (κ × List α)) k = [] := rfl

theorem idxGet_cons [BEq κ] (k2 : κ) (fs : List α) (rest : List (κ × List α)) (k : κ) :
    idxGet ((k2, fs) :: rest) k = if k2 == k then fs else idxGet rest k := by
  simp only [idxGet, List.find?_cons]
  cases h : k2 == k <;> simp [h]

theorem mem_idxGet_idxAdd_self [BEq κ] [LawfulBEq κ] (idx : List (κ × List α))
    (k : κ) (f : α) : f ∈ idxGet (idxAdd idx k f) k := by
  induction idx with
  | nil => simp [idxAdd, idxGet_cons]
  | cons e rest ih =>
    obtain ⟨k2, fs⟩ := e
    simp only [idxAdd]
    by_cases hk : (k2 == k) = true
    · simp [hk, idxGet_cons]
    · simp [hk, idxGet_cons, ih]

theorem mem_idxGet_idxAdd_mono [BEq κ] [LawfulBEq κ] (idx : List (κ × List α))
    (k k' : κ) (f g : α) (hg : g ∈ idxGet idx k) : g ∈ idxGet (idxAdd idx k' f) k := by
  induction idx with
  | nil => simp [idxGet_nil] at hg
  | cons e rest ih =>
    obtain ⟨k2, fs⟩ := e
    rw [idxGet_cons] at hg
    simp only [idxAdd]
    by_cases h2 : (k2 == k') = true
    · rw [if_pos h2, idxGet_cons]
      by_cases h3 : (k2 == k) = true
      · rw [if_pos h3]
        rw [if_pos h3] at hg
        exact List.mem_append_left _ hg
      · rw [if_neg h3]
        rw [if_neg h3] at hg
        exact hg
    · rw [if_neg h2, idxGet_cons]
      by_cases h3 : (k2 == k) = true
      · rw [if_pos h3]
        rw [if_pos h3] at hg
        exact hg
      · rw [if_neg h3]
        rw [if_neg h3] at hg
        exact ih hg

/-! ## Helper lemmas: filter placement in the matcher -/

/-- Whether `_add_filter` hostname-indexes a filter. -/
def indexable (f : NetworkFilter) : Bool := f.is_hostname_anchor && truthy f.hostname

theorem addFilter_hostname_index (m : NetworkFilterMatcher) (f : NetworkFilter) :
    (addFilter m f).hostname_index =
      if indexable f = true ∧ f.is_exception = false
      then idxAdd m.hostname_index (f.hostname.getD []) f
      else m.hostname_index := by
  by_cases ha : f.is_hostname_anchor = true <;>
    by_cases ht : truthy f.hostname = true <;>
      by_cases he2 : f.is_exception = true <;>
        simp [addFilter, indexable, ha, ht, he2]

theorem addFilter_exception_hostname_index (m : NetworkFilterMatcher) (f : NetworkFilter) :
    (addFilter m f).exception_hostname_index =
      if indexable f = true ∧ f.is_exception = true
      then idxAdd m.exception_hostname_index (f.hostname.getD []) f
      else m.exception_hostname_index := by
  by_cases ha : f.is_hostname_anchor = true <;>
    by_cases ht : truthy f.hostname = true <;>
      by_cases he2 : f.is_exception = true <;>
        simp [addFilter, indexable, ha, ht, he2]

theorem addFilter_generic_filters (m : NetworkFilterMatcher) (f : NetworkFilter) :
    (addFilter m f).generic_filters =
      if indexable f = false ∧ f.is_exception = false
      then m.generic_filters ++ [f] else m.generic_filters := by
  by_cases ha : f.is_hostname_anchor = true <;>
    by_cases ht : truthy f.hostname = true <;>
      by_cases he2 : f.is_exception = true <;>
        simp [addFilter, indexable, ha, ht, he2]

theorem addFilter_generic_exceptions (m : NetworkFilterMatcher) (f : NetworkFilter) :
    (addFilter m f).generic_exceptions =
      if indexable f = false ∧ f.is_exception = true
      then m.generic_exceptions ++ [f] else m.generic_exceptions := by
  by_cases ha : f.is_hostname_anchor = true <;>
    by_cases ht : truthy f.hostname = true <;>
      by_cases he2 : f.is_exception = true <;>
        simp [addFilter, indexable, ha, ht, he2]

theorem exception_index_addFilter_mono (m : NetworkFilterMatcher) (f : NetworkFilter)
    (k : Str) (g : NetworkFilter) (hg : g ∈ idxGet m.exception_hostname_index k) :
    g ∈ idxGet (addFilter m f).exception_hostname_index k := by
  rw [addFilter_exception_hostname_index]
  split
  · exact mem_idxGet_idxAdd_mono _ _ _ _ _ hg
  · exact hg

theorem generic_exceptions_addFilter_mono (m : NetworkFilterMatcher) (f : NetworkFilter)
    (g : NetworkFilter) (hg : g ∈ m.generic_exceptions) :
    g ∈ (addFilter m f).generic_exceptions := by
  rw [addFilter_generic_exceptions]
  split
  · exact List.mem_append_left _ hg
  · exact hg

theorem exception_index_addFilters_mono (m : NetworkFilterMatcher)
    (fs : List NetworkFilter) (k : Str) (g : NetworkFilter)
    (hg : g ∈ idxGet m.exception_hostname_index k) :
    g ∈ idxGet (addFilters m fs).exception_hostname_index k := by
  induction fs generalizing m with
  | nil => exact hg
  | cons f fs' ih =>
    exact ih (addFilter m f) (exception_index_addFilter_mono m f k g hg)

theorem generic_exceptions_addFilters_mono (m : NetworkFilterMatcher)
    (fs : List NetworkFilter) (g : NetworkFilter) (hg : g ∈ m.generic_exceptions) :
    g ∈ (addFilters m fs).generic_exceptions := by
  induction fs generalizing m with
  | nil => exact hg
  | cons f fs' ih =>
    exact ih (addFilter m f) (generic_exceptions_addFilter_mono m f g hg)

/-- An exception filter added to the matcher is findable in its
container: hostname-indexed under its own hostname when
hostname-anchored with a truthy hostname, in the generic exception list
otherwise. -/
theorem addFilters_cons (m : NetworkFilterMatcher) (f : NetworkFilter)
    (fs : List NetworkFilter) : addFilters m (f :: fs) = addFilters (addFilter m f) fs := rfl

theorem exception_placed (m : NetworkFilterMatcher) (fs : List NetworkFilter)
    (e : NetworkFilter) (he : e ∈ fs) (hexc : e.is_exception = true) :
    (if indexable e = true then
      e ∈ idxGet (addFilters m fs).exception_hostname_index (e.hostname.getD [])
    else e ∈ (addFilters m fs).generic_exceptions) := by
  induction fs generalizing m with
  | nil => cases he
  | cons f fs' ih =>
    rw [addFilters_cons]
    rcases List.mem_cons.mp he with rfl | hmem
    · by_cases hc : indexable e = true
      · rw [if_pos hc]
        refine exception_index_addFilters_mono (addFilter m e) fs' _ _ ?_
        rw [addFilter_exception_hostname_index, if_pos ⟨hc, hexc⟩]
        exact mem_idxGet_idxAdd_self _ _ _
      · rw [if_neg hc]
        refine generic_exceptions_addFilters_mono (addFilter m e) fs' _ ?_
        rw [addFilter_generic_exceptions,
          if_pos ⟨Bool.eq_false_iff.mpr hc, hexc⟩]
        exact List.mem_append_right _ (List.mem_singleton_self e)
    · exact ih (addFilter m f) hmem

/-! ## Helper lemmas: search -/

theorem findSome?_isSome_of_mem (f : α → Option β) (l : List α) (a : α)
    (ha : a ∈ l) (hf : (f a).isSome = true) : (l.findSome? f).isSome = true := by
  induction l with
  | nil => cases ha
  | cons x xs ih =>
    rw [List.findSome?_cons]
    cases hx : f x with
    | some b => simp
    | none =>
      rcases List.mem_cons.mp ha with rfl | hmem
      · rw [hx] at hf; cases hf
      · exact ih hmem

/-- A hostname-anchored filter with a truthy hostname can only satisfy
the match predicate when its hostname is one of the dot-suffix variants
of the request URL's hostname — hence its index bucket is visited. -/
theorem anchored_match_variant (rawSearch : Str → Str → Bool) (f : NetworkFilter)
    (url : Str) (hostname : Str) (rt : Option RequestType) (src : Option Str) (tp : Bool)
    (hm : filterMatches rawSearch f url hostname rt src tp = true)
    (ha : f.is_hostname_anchor = true) :
    f.hostname.getD [] ∈ getHostnameVariants (urlHostnameOf url) := by
  have hpm : patternMatches rawSearch f url = true := by
    simp only [filterMatches] at hm
    split at hm
    · cases hm
    · split at hm
      · cases hm
      · split at hm
        · cases hm
        · split at hm
          · cases hm
          · exact hm
  simp only [patternMatches, ha, if_true] at hpm
  set urlHost := urlHostnameOf url with hurl
  set h := f.hostname.getD [] with hh
  by_cases hck : (decide (urlHost = h) || ('.' :: h).isSuffixOf urlHost) = true
  · rcases Bool.or_eq_true_iff.mp hck with heq | hsuf
    · have : urlHost = h := of_decide_eq_true heq
      rw [← this]
      exact self_mem_getHostnameVariants urlHost
    · refine mem_variants_of_dotSuffix h urlHost ?_
      rw [← List.reverse_prefix]
      simpa [List.isSuffixOf, List.IsPrefix] using hsuf
  · rw [Bool.eq_false_iff.mpr hck] at hpm
    simp at hpm

/-- If some loaded exception filter matches, `_find_exception` finds
one. -/
theorem findException_isSome (rawSearch : Str → Str → Bool) (fs : List NetworkFilter)
    (url : Str) (rt : Option RequestType) (src : Option Str)
    (e : NetworkFilter) (hefs : e ∈ fs) (hexc : e.is_exception = true)
    (hm : filterMatches rawSearch e url (urlHostnameOf url) rt src
      (isThirdParty (urlHostnameOf url) src) = true) :
    (findException rawSearch (addFilters {} fs) url (urlHostnameOf url) rt src
      (isThirdParty (urlHostnameOf url) src)).isSome = true := by
  set m := addFilters {} fs with hmdef
  set hostname := urlHostnameOf url with hhost
  set tp := isThirdParty (urlHostnameOf url) src with htp
  have hplaced := exception_placed {} fs e hefs hexc
  rw [findException]
  by_cases hc : indexable e = true
  · rw [if_pos hc] at hplaced
    have hvar : e.hostname.getD [] ∈ getHostnameVariants hostname :=
      anchored_match_variant rawSearch e url hostname rt src tp hm
        (Bool.and_elim_left (by simpa [indexable] using hc))
    have hinner : ((idxGet m.exception_hostname_index (e.hostname.getD [])).find?
        (fun f => filterMatches rawSearch f url hostname rt src tp)).isSome = true :=
      List.find?_isSome.mpr ⟨e, hplaced, hm⟩
    have houter := findSome?_isSome_of_mem
      (fun v => (idxGet m.exception_hostname_index v).find?
        (fun f => filterMatches rawSearch f url hostname rt src tp))
      (getHostnameVariants hostname) (e.hostname.getD []) hvar hinner
    cases hres : List.findSome? (fun v => (idxGet m.exception_hostname_index v).find?
        (fun f => filterMatches rawSearch f url hostname rt src tp))
        (getHostnameVariants hostname) with
    | some x => simp [hres]
    | none => rw [hres] at houter; cases houter
  · rw [if_neg hc] at hplaced
    cases hres : List.findSome? (fun v => (idxGet m.exception_hostname_index v).find?
        (fun f => filterMatches rawSearch f url hostname rt src tp))
        (getHostnameVariants hostname) with
    | some x => simp [hres]
    | none =>
      simp only [hres]
      exact List.find?_isSome.mpr ⟨e, hplaced, hm⟩

/-! ## C1: exceptions always override blocks -/

/-- C1.  For every loaded filter set and every request: if some blocking
filter matches the request and some exception filter also matches it,
`should_block` returns an Allow decision (neither Block nor Redirect),
regardless of the order in which the filters were added. -/
theorem exception_always_overrides (rawSearch : Str → Str → Bool)
    (fs : List NetworkFilter) (url : Str) (rt : Option RequestType) (src : Option Str)
    (hb : ∃ b ∈ fs, b.is_exception = false ∧ matchesRequest rawSearch b url rt src = true)
    (he : ∃ e ∈ fs, e.is_exception = true ∧ matchesRequest rawSearch e url rt src = true) :
    (shouldBlock rawSearch (addFilters {} fs) url rt src).blocked = false ∧
    (shouldBlock rawSearch (addFilters {} fs) url rt src).redirect = none := by
  obtain ⟨e, hefs, hexc, hem⟩ := he
  have hsome := findException_isSome rawSearch fs url rt src e hefs hexc
    (by simpa [matchesRequest] using hem)
  simp only [shouldBlock]
  cases hfb : findBlockingFilter rawSearch (addFilters {} fs) url (urlHostnameOf url)
      rt src (isThirdParty (urlHostnameOf url) src) with
  | none => simp
  | some bf =>
    cases hex : findException rawSearch (addFilters {} fs) url (urlHostnameOf url)
        rt src (isThirdParty (urlHostnameOf url) src) with
    | none => rw [hex] at hsome; cases hsome
    | some ex => simp

/-- Witness for C1 at a concrete filter pair and request. -/
theorem exception_always_overrides_witness :
    (shouldBlock noRawRegex
      (addFilters {} ((parseNetworkFilter (ofStr "||ads.com^")).toList
        ++ (parseNetworkFilter (ofStr "@@||ads.com^")).toList))
      (ofStr "https://ads.com/x") none none).blocked = false ∧
    (shouldBlock noRawRegex
      (addFilters {} ((parseNetworkFilter (ofStr "||ads.com^")).toList
        ++ (parseNetworkFilter (ofStr "@@||ads.com^")).toList))
      (ofStr "https://ads.com/x") none none).redirect = none :=
  exception_always_overrides noRawRegex
    ((parseNetworkFilter (ofStr "||ads.com^")).toList
      ++ (parseNetworkFilter (ofStr "@@||ads.com^")).toList)
    (ofStr "https://ads.com/x") none none (by decide) (by decide)

/-! ## C2: the worked third-party example -/

/-- C2, counterexample.  The claim expects
`decide("https://ads.example.com/x.js", SCRIPT, "example.com")` to be
`Block`; under the code's own two-label registrable-domain rule that
request is first-party (`ads.example.com` and `example.com` share the
registrable domain `example.com`), the `third-party` modifier fails,
and the decision is Allow. -/
theorem thirdPartyExample_counterexample :
    (parseNetworkFilter (ofStr "||ads.example.com^$third-party,script")).map (fun f =>
      (shouldBlock noRawRegex (addFilters {} [f]) (ofStr "https://ads.example.com/x.js")
        (some .script) (some (ofStr "example.com"))).blocked)
    = some false := by decide

/-- C2 as amended: the filter parses as the claim states (hostname
`ads.example.com`, `third_party = true`, request types `{SCRIPT}`); the
decision for that URL and type is Allow for source `example.com`
(first-party under the two-label rule) and for source
`ads.example.com`, and Block for a source with a different registrable
domain such as `example.org`. -/
theorem thirdPartyExample_amended :
    (parseNetworkFilter (ofStr "||ads.example.com^$third-party,script")).map (fun f =>
      (f.hostname, f.third_party, f.request_types,
       (shouldBlock noRawRegex (addFilters {} [f]) (ofStr "https://ads.example.com/x.js")
         (some .script) (some (ofStr "example.com"))).blocked,
       (shouldBlock noRawRegex (addFilters {} [f]) (ofStr "https://ads.example.com/x.js")
         (some .script) (some (ofStr "ads.example.com"))).blocked,
       ((shouldBlock noRawRegex (addFilters {} [f]) (ofStr "https://ads.example.com/x.js")
         (some .script) (some (ofStr "example.org"))).blocked,
        (shouldBlock noRawRegex (addFilters {} [f]) (ofStr "https://ads.example.com/x.js")
         (some .script) (some (ofStr "example.org"))).redirect)))
    = some (some (ofStr "ads.example.com"), some true, [.script],
            false, false, (true, none)) := by rfl

/-! ## C3: domain-constraint gating of the match predicate -/

/-- C3, counterexample.  A filter with a non-empty `domains` include set
matches a request whose source hostname is absent: with no (truthy)
source hostname the code skips the domain check entirely. -/
theorem domainGating_counterexample :
    (let f : NetworkFilter :=
      { raw := ofStr "ads", pattern := ofStr "ads", is_plain := true,
        domains := [ofStr "example.com"] }
     f.domains ≠ [] ∧
     matchesRequest noRawRegex f (ofStr "https://x.com/ads") none none = true) := by
  decide

/-- C3 as amended: whenever the request carries a non-empty source
hostname, the match predicate evaluates the filter's domain constraints
against that hostname's dot-suffix variants — an excluded variant makes
the match fail, and with a non-empty include set the match fails unless
some variant is included. -/
theorem domainGating_amended (rawSearch : Str → Str → Bool) (f : NetworkFilter)
    (url : Str) (hostname : Str) (rt : Option RequestType) (h : Str) (tp : Bool)
    (hh : h ≠ []) :
    ((getHostnameVariants (lower h)).any (fun v => f.excluded_domains.contains v) = true →
      filterMatches rawSearch f url hostname rt (some h) tp = false) ∧
    (f.domains ≠ [] →
      (getHostnameVariants (lower h)).any (fun v => f.domains.contains v) = false →
      filterMatches rawSearch f url hostname rt (some h) tp = false) := by
  have htr : truthy (some h) = true := by
    simp [truthy, List.isEmpty_eq_false.mpr hh]
  constructor
  · intro hexcl
    have hdm : domainMatches h f.domains f.excluded_domains = false := by
      have hex_ne : f.excluded_domains ≠ [] := by
        rcases List.any_eq_true.mp hexcl with ⟨v, _, hv⟩
        rcases List.contains_iff_exists_mem_beq.mp hv with ⟨a, ha, _⟩
        exact List.ne_nil_of_mem ha
      simp only [domainMatches]
      rw [if_neg (by simp [List.isEmpty_eq_false.mpr hex_ne])]
      simp only [hexcl, if_true]
    simp only [filterMatches]
    split
    · rfl
    · split
      · rfl
      · split
        · rfl
        · rw [if_pos (by simp [htr, hdm])]
  · intro hinc hnone
    have hdm : domainMatches h f.domains f.excluded_domains = false := by
      simp only [domainMatches]
      rw [if_neg (by simp [List.isEmpty_eq_false.mpr hinc])]
      split
      · rfl
      · rw [if_neg (by simp [List.isEmpty_eq_false.mpr hinc])]
        exact hnone
    simp only [filterMatches]
    split
    · rfl
    · split
      · rfl
      · split
        · rfl
        · rw [if_pos (by simp [htr, hdm])]

/-- Witness for the amended C3 at a concrete filter and hostname. -/
theorem domainGating_amended_witness :
    (filterMatches noRawRegex
      { raw := ofStr "ads", pattern := ofStr "ads", is_plain := true,
        excluded_domains := [ofStr "bad.com"] }
      (ofStr "https://x.com/ads") (ofStr "x.com") none (some (ofStr "bad.com")) false
      = false) ∧
    (filterMatches noRawRegex
      { raw := ofStr "ads", pattern := ofStr "ads", is_plain := true,
        domains := [ofStr "example.com"] }
      (ofStr "https://x.com/ads") (ofStr "x.com") none (some (ofStr "other.com")) false
      = false) :=
  ⟨(domainGating_amended noRawRegex
      { raw := ofStr "ads", pattern := ofStr "ads", is_plain := true,
        excluded_domains := [ofStr "bad.com"] }
      (ofStr "https://x.com/ads") (ofStr "x.com") none (ofStr "bad.com") false
      (by decide)).1 (by decide),
   (domainGating_amended noRawRegex
      { raw := ofStr "ads", pattern := ofStr "ads", is_plain := true,
        domains := [ofStr "example.com"] }
      (ofStr "https://x.com/ads") (ofStr "x.com") none (ofStr "other.com") false
      (by decide)).2 (by decide) (by decide)⟩

/-! ## C4: the `||ads.com^` example -/

/-- C4.  With the single filter `||ads.com^` loaded, `should_block`
blocks `https://ads.com/x` and `https://sub.ads.com/x` and allows
`https://notads.com/x`. -/
theorem hostnameAnchorExample :
    (parseNetworkFilter (ofStr "||ads.com^")).map (fun f =>
      (((shouldBlock noRawRegex (addFilters {} [f]) (ofStr "https://ads.com/x")
          none none).blocked,
        (shouldBlock noRawRegex (addFilters {} [f]) (ofStr "https://ads.com/x")
          none none).redirect),
       ((shouldBlock noRawRegex (addFilters {} [f]) (ofStr "https://sub.ads.com/x")
          none none).blocked,
        (shouldBlock noRawRegex (addFilters {} [f]) (ofStr "https://sub.ads.com/x")
          none none).redirect),
       ((shouldBlock noRawRegex (addFilters {} [f]) (ofStr "https://notads.com/x")
          none none).blocked,
        (shouldBlock noRawRegex (addFilters {} [f]) (ofStr "https://notads.com/x")
          none none).redirect)))
    = some ((true, none), (true, none), (false, none)) := by decide

/-! ## C5: engine counters and redirect realization -/

/-- C5, counterexample.  A filter redirecting to an unknown resource
name: the matcher's decision is `Redirect("bogusname")`, yet the route
handler does not increment `requests_redirected`, increments
`requests_blocked`, and realizes the decision as a hard abort. -/
theorem engineCounters_counterexample :
    (parseNetworkFilter (ofStr "||analytics.com/script.js$redirect=bogusname")).map (fun f =>
      ((shouldBlock noRawRegex (addFilters {} [f]) (ofStr "https://analytics.com/script.js")
          (some (playwrightTypeMap (ofStr "script"))) none).blocked,
       (shouldBlock noRawRegex (addFilters {} [f]) (ofStr "https://analytics.com/script.js")
          (some (playwrightTypeMap (ofStr "script"))) none).redirect,
       (handleRoute noRawRegex (addFilters {} [f]) {} (ofStr "https://analytics.com/script.js")
          (ofStr "script") none).1.redirected,
       (handleRoute noRawRegex (addFilters {} [f]) {} (ofStr "https://analytics.com/script.js")
          (ofStr "script") none).1.blocked,
       (handleRoute noRawRegex (addFilters {} [f]) {} (ofStr "https://analytics.com/script.js")
          (ofStr "script") none).2))
    = some (true, some (ofStr "bogusname"), 0, 1, RouteAction.aborted) := by rfl

/-- C5 as amended: for every http(s) request the handler increments
`requests_checked`; `requests_redirected` is incremented exactly when
the decision is a Redirect whose resource name resolves in the resource
table (and that case is realized by fulfilling the request);
`requests_blocked` is incremented exactly when the decision is Block or
a Redirect whose resource name does not resolve, and exactly those
requests are aborted. -/
theorem engineCounters_amended (rawSearch : Str → Str → Bool) (m : NetworkFilterMatcher)
    (c : EngineCounters) (url : Str) (resourceType : Str) (src : Option Str)
    (hurl : ((ofStr "http://").isPrefixOf url || (ofStr "https://").isPrefixOf url) = true) :
    (handleRoute rawSearch m c url resourceType src).1.checked = c.checked + 1 ∧
    ((handleRoute rawSearch m c url resourceType src).1.redirected =
      c.redirected +
        (if (redirAvailable rawSearch m url resourceType src) = true then 1 else 0)) ∧
    ((handleRoute rawSearch m c url resourceType src).1.blocked =
      c.blocked +
        (if ((shouldBlock rawSearch m url (some (playwrightTypeMap resourceType)) src).blocked
            && !(redirAvailable rawSearch m url resourceType src)) = true then 1 else 0)) ∧
    ((handleRoute rawSearch m c url resourceType src).2 = RouteAction.aborted ↔
      ((shouldBlock rawSearch m url (some (playwrightTypeMap resourceType)) src).blocked
        && !(redirAvailable rawSearch m url resourceType src)) = true) ∧
    ((redirAvailable rawSearch m url resourceType src) = true →
      (handleRoute rawSearch m c url resourceType src).2 =
        RouteAction.fulfilled
          ((shouldBlock rawSearch m url (some (playwrightTypeMap resourceType)) src).redirect.getD [])) := by
  have hg : (!((ofStr "http://").isPrefixOf url || (ofStr "https://").isPrefixOf url)) = false := by
    simp [hurl]
  simp only [handleRoute, redirAvailable, hg, Bool.false_eq_true, if_false]
  by_cases hb :
      (shouldBlock rawSearch m url (some (playwrightTypeMap resourceType)) src).blocked = true
  · by_cases ht :
        truthy (shouldBlock rawSearch m url (some (playwrightTypeMap resourceType)) src).redirect
          = true
    · rcases Option.eq_none_or_eq_some
        (getRedirectResource
          ((shouldBlock rawSearch m url
            (some (playwrightTypeMap resourceType)) src).redirect.getD [])) with hres | ⟨x, hres⟩
      · simp [hb, ht, hres]
      · simp [hb, ht, hres]
    · have ht' := Bool.eq_false_iff.mpr ht
      simp [hb, ht']
  · have hb' := Bool.eq_false_iff.mpr hb
    simp [hb']

/-- Witness for the amended C5 at a concrete request. -/
theorem engineCounters_amended_witness :
    (handleRoute noRawRegex (addFilters {} []) {} (ofStr "http://a.com/x")
      (ofStr "script") none).1.checked = (0 : Nat) + 1 ∧
    (handleRoute noRawRegex (addFilters {} []) {} (ofStr "http://a.com/x")
      (ofStr "script") none).2 ≠ RouteAction.aborted :=
  have h := engineCounters_amended noRawRegex (addFilters {} []) {}
    (ofStr "http://a.com/x") (ofStr "script") none (by decide)
  ⟨h.1, by
    intro hab
    have := (h.2.2.2.1).mp hab
    revert this
    decide⟩

/-! ## C6: CSS generation -/

theorem chunksFuel_eq_of_le (fuel fuel' : Nat) (l : List α) (h : l.length ≤ fuel)
    (h' : l.length ≤ fuel') : chunksFuel fuel l = chunksFuel fuel' l := by
  induction fuel generalizing fuel' l with
  | zero =>
    cases l with
    | nil => cases fuel' <;> rfl
    | cons x rest => simp at h
  | succ n ih =>
    cases l with
    | nil => cases fuel' <;> rfl
    | cons x rest =>
      cases fuel' with
      | zero => simp at h'
      | succ n' =>
        simp only [chunksFuel]
        congr 1
        apply ih
        · simp only [List.length_drop, List.length_cons]
          simp only [List.length_cons] at h
          omega
        · simp only [List.length_drop, List.length_cons]
          simp only [List.length_cons] at h'
          omega

theorem chunks100_cons (x : α) (rest : List α) :
    chunks100 (x :: rest) = (x :: rest).take 100 :: chunks100 ((x :: rest).drop 100) := by
  simp only [chunks100, List.length_cons, chunksFuel]
  congr 1
  apply chunksFuel_eq_of_le
  · simp only [List.length_drop, List.length_cons]
    omega
  · exact le_refl _

theorem specBatches_cons (x : α) (rest : List α) :
    specBatches (x :: rest) = (x :: rest).take 100 :: specBatches ((x :: rest).drop 100) := by
  simp only [specBatches]
  have hL : ((x :: rest).length + 99) / 100 = (((x :: rest).drop 100).length + 99) / 100 + 1 := by
    simp only [List.length_drop, List.length_cons]
    omega
  rw [hL, List.range_succ_eq_map]
  simp only [List.map_cons, List.map_map]
  refine congrArg₂ _ (by simp) ?_
  refine List.map_congr_left ?_
  intro i _
  simp only [Function.comp]
  rw [List.drop_drop]
  congr 2
  omega

theorem chunks100_eq_specBatches (l : List α) : chunks100 l = specBatches l := by
  suffices haux : ∀ (n : Nat) (l : List α), l.length ≤ n → chunks100 l = specBatches l from
    haux l.length l (le_refl _)
  intro n
  induction n with
  | zero =>
    intro l h
    have hl : l = [] := List.length_eq_zero.mp (Nat.le_zero.mp h)
    subst hl
    simp [chunks100, chunksFuel, specBatches]
  | succ n ih =>
    intro l h
    cases l with
    | nil => simp [chunks100, chunksFuel, specBatches]
    | cons x rest =>
      rw [chunks100_cons, specBatches_cons,
        ih ((x :: rest).drop 100) (by
          simp only [List.length_drop, List.length_cons]
          simp only [List.length_cons] at h
          omega)]

/-- C6 as amended: `get_css_for_domain` batches the hostname's
selectors into groups of at most 100, drops exactly those selectors
that contain a double-quote character, or a single-quote character
while containing no backslash at all, joins the survivors of each batch
with `", "` wrapped as a `display: none` rule, joins batches with
newlines, and returns the empty string when there are no selectors. -/
theorem getCss_eq_cssSpec (h : CosmeticFilterHandler) (hostname : Str) :
    getCssForDomain h hostname = cssSpec (getSelectorsForDomain h hostname) := by
  simp only [getCssForDomain, cssSpec, cssSkipSelector, specDropSelector]
  cases hsel : getSelectorsForDomain h hostname with
  | nil => rfl
  | cons s rest =>
    rw [if_neg (by simp)]
    rw [chunks100_eq_specBatches]

/-- C6, counterexample to the claim as stated.  The selector
`a\"b` contains no unescaped quote character (its double quote is
preceded by a backslash), yet `get_css_for_domain` drops it: it is the
hostname's only selector and the produced CSS is empty. -/
theorem cssQuote_counterexample :
    containsUnescapedQuote ['a', backslash, quote2, 'b'] = false ∧
    getSelectorsForDomain
      (addCosmeticFilters {}
        [⟨['a', backslash, quote2, 'b'], ['a', backslash, quote2, 'b'], false, [], []⟩])
      (ofStr "example.com") = [['a', backslash, quote2, 'b']] ∧
    getCssForDomain
      (addCosmeticFilters {}
        [⟨['a', backslash, quote2, 'b'], ['a', backslash, quote2, 'b'], false, [], []⟩])
      (ofStr "example.com") = [] := by
  decide

/-! ## C7: scriptlet filters with no included domain never fire -/

theorem addScriptletFilters_cons (h : ScriptletHandler) (f : ScriptletFilter)
    (fs : List ScriptletFilter) :
    addScriptletFilters h (f :: fs) = addScriptletFilters (addScriptletFilter h f) fs := rfl

theorem scriptletIndex_filter (fs : List ScriptletFilter) (h₁ h₂ : ScriptletHandler)
    (hidx : h₁.domain_scriptlets = h₂.domain_scriptlets) :
    (addScriptletFilters h₁ fs).domain_scriptlets =
      (addScriptletFilters h₂ (fs.filter (fun f => !f.domains.isEmpty))).domain_scriptlets := by
  induction fs generalizing h₁ h₂ with
  | nil => exact hidx
  | cons f fs' ih =>
    rw [addScriptletFilters_cons, List.filter_cons]
    by_cases hd : f.domains.isEmpty = true
    · have hnil : f.domains = [] := List.isEmpty_iff.mp hd
      rw [if_neg (by simp [hd])]
      refine ih _ _ ?_
      simp [addScriptletFilter, hnil, hidx]
    · rw [if_pos (by simp [Bool.eq_false_iff.mpr hd])]
      rw [addScriptletFilters_cons]
      refine ih _ _ ?_
      simp [addScriptletFilter, hidx]

theorem getScripts_index_congr (impls : Str → Option Str) (h₁ h₂ : ScriptletHandler)
    (hidx : h₁.domain_scriptlets = h₂.domain_scriptlets) (hostname : Str) :
    getScriptsForDomain impls h₁ hostname = getScriptsForDomain impls h₂ hostname := by
  simp only [getScriptsForDomain, hidx]

/-- C7.  Scriptlet filters whose included-domain set is empty are never
indexed, so removing all of them from the loaded list leaves every
hostname's script output unchanged: such a filter never contributes a
script. -/
theorem scriptletNoDomain_inert (impls : Str → Option Str) (fs : List ScriptletFilter)
    (hostname : Str) :
    getScriptsForDomain impls (addScriptletFilters {} fs) hostname =
      getScriptsForDomain impls
        (addScriptletFilters {} (fs.filter (fun f => !f.domains.isEmpty))) hostname :=
  getScripts_index_congr impls _ _ (scriptletIndex_filter fs {} {} rfl) hostname

/-! ## C8: cosmetic parser invariants -/

/-- C8, counterexample.  The parser only rejects selectors that *start
with* a procedural prefix: the line `##div:has(x)` contains the
procedural construct `:has(` but is parsed into a record carrying it. -/
theorem cosmeticParse_counterexample :
    (parseCosmeticFilter (ofStr "##div:has(x)")).map (·.selector)
      = some (ofStr "div:has(x)") ∧
    strContains (ofStr "div:has(x)") (ofStr ":has(") = true := by decide

/-- C8 as amended: every record produced by `parse_cosmetic_filter` has
a non-empty selector, and that selector never *starts with* one of the
procedural prefixes (`:has(`, `:xpath(`, `:not(`, `:matches-css(`,
`+js(`); a line whose selector part starts with such a prefix is
rejected. -/
theorem cosmeticParse_invariant (line : Str) (f : CosmeticFilter)
    (hp : parseCosmeticFilter line = some f) :
    f.selector ≠ [] ∧ ∀ p ∈ proceduralPrefixes, p.isPrefixOf f.selector = false := by
  simp only [parseCosmeticFilter] at hp
  split at hp
  · cases hp
  · split at hp
    · cases hp
    · split at hp
      · cases hp
      · split at hp
        · cases hp
        · rename_i sep hsep dp rs hsplit hne hproc
          obtain rfl := (Option.some_inj.mp hp).symm
          constructor
          · simpa [List.isEmpty_eq_false] using hne
          · intro p hmem
            by_cases hpre : p.isPrefixOf (stripWs rs) = true
            · exact absurd (List.any_eq_true.mpr ⟨p, hmem, hpre⟩) hproc
            · exact Bool.eq_false_iff.mpr hpre

/-- Witness for the amended C8 at a concrete line. -/
theorem cosmeticParse_invariant_witness :
    (CosmeticFilter.mk (ofStr "##.ad") (ofStr ".ad") false [] []).selector ≠ [] ∧
    ∀ p ∈ proceduralPrefixes,
      p.isPrefixOf (CosmeticFilter.mk (ofStr "##.ad") (ofStr ".ad") false [] []).selector
        = false :=
  cosmeticParse_invariant (ofStr "##.ad")
    (CosmeticFilter.mk (ofStr "##.ad") (ofStr ".ad") false [] []) (by decide)

/-! ## C9: totality of the network-filter parser -/

/-- C9.  `parse_network_filter` is total by construction, and it
returns `None` exactly when the line — after stripping a leading `@@`
and the modifier suffix located by the `$` rule — is empty; every other
line yields a filter record. -/
theorem networkParse_none_iff (line : Str) :
    parseNetworkFilter line = none ↔ (networkStrip line).2.2 = [] := by
  rcases hns : networkStrip line with ⟨exc, ms, l2⟩
  simp only [parseNetworkFilter, hns]
  by_cases h2 : l2.isEmpty = true
  · simp [h2, List.isEmpty_iff.mp h2]
  · have h2' := Bool.eq_false_iff.mpr h2
    simp [h2', List.isEmpty_eq_false.mp h2']

/-! ## C10: the matcher's four-way partition -/

/-- The typing half of the partition invariant: hostname-indexed
filters are non-exception / exception respectively, hostname-anchored,
keyed by their own non-empty hostname; generic filters are the
remainder, split by `is_exception`. -/
def MatcherWf (m : NetworkFilterMatcher) : Prop :=
  (∀ e ∈ m.hostname_index, ∀ g ∈ e.2,
    g.is_exception = false ∧ g.is_hostname_anchor = true ∧ g.hostname = some e.1 ∧ e.1 ≠ []) ∧
  (∀ e ∈ m.exception_hostname_index, ∀ g ∈ e.2,
    g.is_exception = true ∧ g.is_hostname_anchor = true ∧ g.hostname = some e.1 ∧ e.1 ≠ []) ∧
  (∀ g ∈ m.generic_filters, g.is_exception = false ∧ indexable g = false) ∧
  (∀ g ∈ m.generic_exceptions, g.is_exception = true ∧ indexable g = false)

theorem idxAdd_entries_prop [BEq κ] [LawfulBEq κ] (P : κ → α → Prop)
    (idx : List (κ × List α)) (k : κ) (f : α)
    (hidx : ∀ e ∈ idx, ∀ g ∈ e.2, P e.1 g) (hf : P k f) :
    ∀ e ∈ idxAdd idx k f, ∀ g ∈ e.2, P e.1 g := by
  induction idx with
  | nil =>
    intro e he g hg
    simp only [idxAdd, List.mem_singleton] at he
    subst he
    simp only [List.mem_singleton] at hg
    subst hg
    exact hf
  | cons e0 rest ih =>
    obtain ⟨k2, fs⟩ := e0
    intro e he g hg
    simp only [idxAdd] at he
    by_cases hk : (k2 == k) = true
    · rw [if_pos hk] at he
      rcases List.mem_cons.mp he with rfl | hmem
      · rcases List.mem_append.mp hg with hg1 | hg2
        · exact hidx (k2, fs) (List.mem_cons_self _ _) g hg1
        · obtain rfl := List.mem_singleton.mp hg2
          obtain rfl : k2 = k := beq_iff_eq.mp hk
          exact hf
      · exact hidx _ (List.mem_cons_of_mem _ hmem) g hg
    · rw [if_neg hk] at he
      rcases List.mem_cons.mp he with rfl | hmem
      · exact hidx _ (List.mem_cons_self _ _) g hg
      · exact ih (fun e' he' => hidx e' (List.mem_cons_of_mem _ he')) e hmem g hg

theorem indexable_hostname (f : NetworkFilter) (hc : indexable f = true) :
    f.hostname = some (f.hostname.getD []) ∧ f.hostname.getD [] ≠ [] := by
  have hc' : f.is_hostname_anchor = true ∧ truthy f.hostname = true := by
    simpa [indexable] using hc
  obtain ⟨-, ht⟩ := hc' 
  cases hh : f.hostname with
  | none => rw [hh] at ht; cases ht
  | some h =>
    rw [hh] at ht
    simp only [truthy] at ht
    exact ⟨by simp, by simpa [List.isEmpty_eq_false] using ht⟩

theorem matcherWf_addFilter (m : NetworkFilterMatcher) (f : NetworkFilter)
    (hm : MatcherWf m) : MatcherWf (addFilter m f) := by
  obtain ⟨h1, h2, h3, h4⟩ := hm
  refine ⟨?_, ?_, ?_, ?_⟩
  · rw [addFilter_hostname_index]
    split
    · rename_i hc
      refine idxAdd_entries_prop
        (fun (k : Str) (g : NetworkFilter) => g.is_exception = false ∧
          g.is_hostname_anchor = true ∧ g.hostname = some k ∧ k ≠ []) _ _ _ h1 ?_
      obtain ⟨hhost, hne⟩ := indexable_hostname f hc.1
      have ha : f.is_hostname_anchor = true ∧ truthy f.hostname = true := by
        simpa [indexable] using hc.1
      exact ⟨hc.2, ha.1, hhost, hne⟩
    · exact h1
  · rw [addFilter_exception_hostname_index]
    split
    · rename_i hc
      refine idxAdd_entries_prop
        (fun (k : Str) (g : NetworkFilter) => g.is_exception = true ∧
          g.is_hostname_anchor = true ∧ g.hostname = some k ∧ k ≠ []) _ _ _ h2 ?_
      obtain ⟨hhost, hne⟩ := indexable_hostname f hc.1
      have ha : f.is_hostname_anchor = true ∧ truthy f.hostname = true := by
        simpa [indexable] using hc.1
      exact ⟨hc.2, ha.1, hhost, hne⟩
    · exact h2
  · rw [addFilter_generic_filters]
    split
    · rename_i hc
      intro g hg
      rcases List.mem_append.mp hg with hg1 | hg2
      · exact h3 g hg1
      · obtain rfl := List.mem_singleton.mp hg2
        exact ⟨hc.2, hc.1⟩
    · exact h3
  · rw [addFilter_generic_exceptions]
    split
    · rename_i hc
      intro g hg
      rcases List.mem_append.mp hg with hg1 | hg2
      · exact h4 g hg1
      · obtain rfl := List.mem_singleton.mp hg2
        exact ⟨hc.2, hc.1⟩
    · exact h4

theorem matcherWf_addFilters (m : NetworkFilterMatcher) (fs : List NetworkFilter)
    (hm : MatcherWf m) : MatcherWf (addFilters m fs) := by
  induction fs generalizing m with
  | nil => exact hm
  | cons f fs' ih => exact ih (addFilter m f) (matcherWf_addFilter m f hm)

theorem flattenIdx_idxAdd [BEq κ] (idx : List (κ × List α)) (k : κ) (f : α) :
    (flattenIdx (idxAdd idx k f)).Perm (f :: flattenIdx idx) := by
  induction idx with
  | nil => simp [idxAdd, flattenIdx]
  | cons e rest ih =>
    obtain ⟨k2, fs⟩ := e
    simp only [idxAdd]
    by_cases hk : (k2 == k) = true
    · rw [if_pos hk]
      simp only [flattenIdx, List.flatMap_cons]
      rw [List.append_assoc]
      exact List.perm_middle
    · rw [if_neg hk]
      simp only [flattenIdx, List.flatMap_cons]
      exact (List.Perm.append_left fs ih).trans List.perm_middle

theorem allFilters_addFilter (m : NetworkFilterMatcher) (f : NetworkFilter) :
    (allFilters (addFilter m f)).Perm (f :: allFilters m) := by
  simp only [allFilters, addFilter_hostname_index, addFilter_exception_hostname_index,
    addFilter_generic_filters, addFilter_generic_exceptions, List.append_assoc,
    List.singleton_append]
  by_cases h1 : indexable f = true <;> by_cases h2 : f.is_exception = true
  · rw [if_neg (by simp [h2]), if_pos ⟨h1, h2⟩, if_neg (by simp [h2]), if_neg (by simp [h1])]
    exact (List.Perm.append_left _
      ((flattenIdx_idxAdd _ _ _).append_right _)).trans List.perm_middle
  · rw [if_pos ⟨h1, Bool.eq_false_iff.mpr h2⟩, if_neg (by simp [h2]),
      if_neg (by simp [h1]), if_neg (by simp [h2])]
    exact (flattenIdx_idxAdd _ _ _).append_right _
  · have h1' : indexable f = false := Bool.eq_false_iff.mpr h1
    rw [if_neg (by simp [h2]), if_neg (by simp [h1']), if_neg (by simp [h2]),
      if_pos ⟨h1', h2⟩]
    have q2 : (m.generic_filters ++ (m.generic_exceptions ++ [f])).Perm
        (f :: (m.generic_filters ++ m.generic_exceptions)) :=
      (List.Perm.append_left _ (List.perm_append_singleton _ _)).trans List.perm_middle
    have q3 : (flattenIdx m.exception_hostname_index
          ++ (m.generic_filters ++ (m.generic_exceptions ++ [f]))).Perm
        (f :: (flattenIdx m.exception_hostname_index
          ++ (m.generic_filters ++ m.generic_exceptions))) :=
      (List.Perm.append_left _ q2).trans List.perm_middle
    exact (List.Perm.append_left _ q3).trans List.perm_middle
  · have h1' : indexable f = false := Bool.eq_false_iff.mpr h1
    have h2' : f.is_exception = false := Bool.eq_false_iff.mpr h2
    have hcond : indexable f = false ∧ f.is_exception = false := ⟨h1', h2'⟩
    rw [if_neg (by simp [h1']), if_neg (by simp [h1']),
      if_pos hcond, if_neg (by simp [h2'])]
    simp only [List.append_assoc, List.singleton_append]
    have q2 : (m.generic_filters ++ (f :: m.generic_exceptions)).Perm
        (f :: (m.generic_filters ++ m.generic_exceptions)) := List.perm_middle
    have q3 : (flattenIdx m.exception_hostname_index
          ++ (m.generic_filters ++ (f :: m.generic_exceptions))).Perm
        (f :: (flattenIdx m.exception_hostname_index
          ++ (m.generic_filters ++ m.generic_exceptions))) :=
      (List.Perm.append_left _ q2).trans List.perm_middle
    exact (List.Perm.append_left _ q3).trans List.perm_middle

theorem allFilters_addFilters (m : NetworkFilterMatcher) (fs : List NetworkFilter) :
    (allFilters (addFilters m fs)).Perm (fs ++ allFilters m) := by
  induction fs generalizing m with
  | nil => exact List.Perm.refl _
  | cons f fs' ih =>
    rw [addFilters_cons]
    exact ((ih (addFilter m f)).trans
      (List.Perm.append_left _ (allFilters_addFilter m f))).trans List.perm_middle

/-- C10.  After any sequence of `add_filters` calls starting from a
fresh matcher, the four containers hold exactly the added filters (as a
multiset), and each container is typed: hostname-indexed entries are
hostname-anchored filters with a non-empty hostname stored under their
own hostname, split by `is_exception`; all other filters sit in the
matching generic list. -/
theorem matcher_partition (fs : List NetworkFilter) :
    (allFilters (addFilters {} fs)).Perm fs ∧ MatcherWf (addFilters {} fs) := by
  constructor
  · have h := allFilters_addFilters {} fs
    simpa [allFilters, flattenIdx] using h
  · refine matcherWf_addFilters {} fs ?_
    refine ⟨?_, ?_, ?_, ?_⟩ <;> simp

/-- Witness for C10 at a concrete one-filter load. -/
theorem matcher_partition_witness :
    (allFilters (addFilters {}
      [NetworkFilter.mk (ofStr "ads.com^") (ofStr "ads.com^") false true false false
        false false (some (ofStr "ads.com")) none [] [] [] [] none])).Perm
      [NetworkFilter.mk (ofStr "ads.com^") (ofStr "ads.com^") false true false false
        false false (some (ofStr "ads.com")) none [] [] [] [] none] ∧
    (NetworkFilter.mk (ofStr "ads.com^") (ofStr "ads.com^") false true false false
      false false (some (ofStr "ads.com")) none [] [] [] [] none).hostname
      = some (ofStr "ads.com") :=
  ⟨(matcher_partition
      [NetworkFilter.mk (ofStr "ads.com^") (ofStr "ads.com^") false true false false
        false false (some (ofStr "ads.com")) none [] [] [] [] none]).1,
   ((matcher_partition
      [NetworkFilter.mk (ofStr "ads.com^") (ofStr "ads.com^") false true false false
        false false (some (ofStr "ads.com")) none [] [] [] [] none]).2.1
      (ofStr "ads.com",
        [NetworkFilter.mk (ofStr "ads.com^") (ofStr "ads.com^") false true false false
          false false (some (ofStr "ads.com")) none [] [] [] [] none])
      (by decide)
      (NetworkFilter.mk (ofStr "ads.com^") (ofStr "ads.com^") false true false false
        false false (some (ofStr "ads.com")) none [] [] [] [] none)
      (by decide)).2.2.1⟩

end Webctl
